import Mathlib

/-!
Shallow embedding of the conversational sales-assistant servers
(`server.py`, `voice_server.py`, `agent.py`): the per-connection
conversation registry, the turn orchestration of the websocket
endpoints, and the streaming synchronizer `stream_response_with_audio`.

Strings are modelled as `List Char`.  The whitespace set mirrors the
ASCII behaviour of Python's `str.split` / `str.strip` and of the regex
class `\s` used by the sentence splitter.  The agent and text-to-speech
collaborators are black boxes, modelled as function parameters whose
failure case (`Except.error` / `none`) stands for the call raising an
exception.
-/

/-- ASCII whitespace as recognised by Python's `str.split`, `str.strip`
and the regex class `\s` (restricted to the ASCII range). -/
def isSpace (c : Char) : Bool :=
  c == ' ' || c == '\t' || c == '\n' || c == '\r' || c == '\x0b' || c == '\x0c'

/-- Sentence-terminal punctuation of the splitting regex `(?<=[.!?])\s+`. -/
def isSentEnd (c : Char) : Bool := c == '.' || c == '!' || c == '?'

/-- The backquote character, one of the stripped decoration characters. -/
def backquoteChar : Char := Char.ofNat 96

/-- One pass of `text.replace("**", "")`: scan left to right, removing
non-overlapping occurrences of two consecutive asterisks. -/
def replaceStarStar : List Char → List Char
  | '*' :: '*' :: rest => replaceStarStar rest
  | c :: rest => c :: replaceStarStar rest
  | [] => []

/-- `text.replace(p, "")` for a single-character pattern `p`. -/
def replaceAllChar (p : Char) : List Char → List Char
  | [] => []
  | c :: rest => if c == p then replaceAllChar p rest else c :: replaceAllChar p rest

/-- The cleaning chain of `stream_response_with_audio`: replace `**`,
then `*`, then the hash mark, then the backquote, each by the empty
string, in that order. -/
def stripDecorations (t : List Char) : List Char :=
  replaceAllChar backquoteChar (replaceAllChar '#' (replaceAllChar '*' (replaceStarStar t)))

/-- Whether the most recently read character (head of the reversed
current fragment) is sentence-terminal punctuation: the lookbehind of
the splitting regex. -/
def headIsSentEnd : List Char → Bool
  | p :: _ => isSentEnd p
  | [] => false

/-- `re.split(r'(?<=[.!?])\s+', text)`: a fragment ends where a
whitespace run follows one of `.`, `!`, `?`; the whole run is the
(dropped) delimiter.  `acc` is the current fragment, reversed; the
`Bool` is true while a delimiter run is being consumed (the new
fragment is still empty in that state). -/
def splitSentencesAux : List Char → List Char → Bool → List (List Char)
  | [], acc, _ => [acc.reverse]
  | c :: rest, acc, true =>
      if isSpace c then splitSentencesAux rest acc true
      else splitSentencesAux rest [c] false
  | c :: rest, acc, false =>
      if isSpace c && headIsSentEnd acc then
        acc.reverse :: splitSentencesAux rest [] true
      else
        splitSentencesAux rest (c :: acc) false

/-- The sentence list of the streaming synchronizer. -/
def splitSentences (t : List Char) : List (List Char) :=
  splitSentencesAux t [] false

/-- `str.split()` with no separator argument: maximal runs of
non-whitespace characters, with no empty tokens.  `acc` is the current
token, reversed. -/
def wordsAux : List Char → List Char → List (List Char)
  | [], acc => if acc.isEmpty then [] else [acc.reverse]
  | c :: rest, acc =>
      if isSpace c then
        if acc.isEmpty then wordsAux rest []
        else acc.reverse :: wordsAux rest []
      else wordsAux rest (c :: acc)

/-- `sentence.split()`. -/
def pyWords (s : List Char) : List (List Char) := wordsAux s []

/-- `not sentence.strip()`: true iff the string is empty or
whitespace-only (such sentences are skipped by the loop). -/
def isBlank (s : List Char) : Bool := s.all isSpace

/-- Outbound protocol events of the endpoints.  `pause ms` records the
`asyncio.sleep(0.1)` between sentences; the JSON field values are the
constructor arguments (`stream_start`'s constant empty `content` field
is omitted). -/
inductive Event where
  | streamStart : Event
  | streamWord (word : List Char) (index : Nat) (delay : Nat) : Event
  | streamAudio (audio : List Char) (format : List Char) (wordCount : Nat) : Event
  | pause (ms : Nat) : Event
  | streamEnd (fullText : List Char) : Event
  | typing (flag : Bool) : Event
  | processing (flag : Bool) : Event
  | assistantMsg (content : List Char) : Event
  | errorMsg (content : List Char) : Event
  deriving DecidableEq

/-- The constant `format` field `"mp3"` of every `stream_audio` event. -/
def mp3Format : List Char := "mp3".data

/-- The per-word events of one sentence, following `enumerate(words)`:
each word carries a trailing space except the last of the sentence, its
zero-based index, and the fixed delay of the branch taken. -/
def wordEvents (delay : Nat) : Nat → List (List Char) → List Event
  | _, [] => []
  | i, [w] => [Event.streamWord w i delay]
  | i, w :: rest => Event.streamWord (w ++ [' ']) i delay :: wordEvents delay (i + 1) rest

/-- Black-box text-to-speech collaborator
(`client.audio.speech.create`): `none` models the call raising, `some`
carries the base64-encoded audio payload. -/
abbrev TtsFn := List Char → Option (List Char)

/-- The events of one non-blank sentence: on synthesis success the word
events (delay 350), then the sentence's audio chunk, then the 100 ms
inter-sentence sleep; on synthesis failure only the word events with
delay 100 (the `except` branch sends no audio and does not reach the
sleep). -/
def streamSentence (tts : TtsFn) (sentence : List Char) : List Event :=
  match tts sentence with
  | some audio =>
      wordEvents 350 0 (pyWords sentence)
        ++ [Event.streamAudio audio mp3Format (pyWords sentence).length, Event.pause 100]
  | none => wordEvents 100 0 (pyWords sentence)

/-- `stream_response_with_audio(websocket, text)`, as the list of
outbound events it produces. -/
def stream_response_with_audio (tts : TtsFn) (text : List Char) : List Event :=
  Event.streamStart ::
    (((splitSentences (stripDecorations text)).filter (fun s => !isBlank s)).map
        (streamSentence tts)).flatten
      ++ [Event.streamEnd text]

/-- Transcript entry roles. -/
inductive Role where
  | user : Role
  | assistant : Role
  deriving DecidableEq

/-- One transcript entry, as appended to `conversations[session_id]`. -/
structure Msg where
  role : Role
  content : List Char
  deriving DecidableEq

/-- The user entry appended before the agent call. -/
def userMsg (c : List Char) : Msg := ⟨Role.user, c⟩

/-- The assistant entry appended after a successful agent call. -/
def asstMsg (c : List Char) : Msg := ⟨Role.assistant, c⟩

/-- Black-box agent collaborator (`Runner.run`): `Except.error` models
the call raising, carrying the text of `str(e)`. -/
abbrev AgentFn := List Msg → Except (List Char) (List Char)

/-- The text endpoint's wrapper around the agent error description. -/
def errWrapText (e : List Char) : List Char :=
  "I apologize, but I encountered an error: ".data ++ e ++ ". Please try again.".data

/-- The voice endpoint's wrapper around the agent error description. -/
def errWrapVoice (e : List Char) : List Char :=
  "Sorry, I encountered an error: ".data ++ e

/-- One iteration of the `/ws` receive loop, after the receive and JSON
parse: validation, transcript mutation, agent call, reply events.
Returns the updated transcript and the outbound events of the turn. -/
def textTurn (agent : AgentFn) (conv : List Msg) (u : List Char) : List Msg × List Event :=
  if isBlank u then (conv, [])
  else
    match agent (conv ++ [userMsg u]) with
    | Except.ok r =>
        (conv ++ [userMsg u] ++ [asstMsg r],
         [Event.typing true, Event.assistantMsg r, Event.typing false])
    | Except.error e =>
        (conv ++ [userMsg u],
         [Event.typing true, Event.errorMsg (errWrapText e), Event.typing false])

/-- One iteration of the `/ws/voice` receive loop. -/
def voiceTurn (agent : AgentFn) (tts : TtsFn) (conv : List Msg) (u : List Char) :
    List Msg × List Event :=
  if isBlank u then (conv, [])
  else
    match agent (conv ++ [userMsg u]) with
    | Except.ok r =>
        (conv ++ [userMsg u] ++ [asstMsg r],
         Event.processing true :: stream_response_with_audio tts r ++ [Event.processing false])
    | Except.error e =>
        (conv ++ [userMsg u],
         [Event.processing true, Event.errorMsg (errWrapVoice e), Event.processing false])

/-- The process-wide `conversations` dict, keyed by
`str(id(websocket))` (modelled as `Nat`). -/
abbrev Registry := List (Nat × List Msg)

/-- Dict lookup `conversations[sid]`. -/
def regLookup : Registry → Nat → Option (List Msg)
  | [], _ => none
  | (k, v) :: rest, sid => if k = sid then some v else regLookup rest sid

/-- Dict membership test `sid in conversations`. -/
def regHas : Registry → Nat → Bool
  | [], _ => false
  | (k, _) :: rest, sid => if k = sid then true else regHas rest sid

/-- Removal of the binding of `sid` (`del conversations[sid]`; dict keys
are unique, so removing every binding of the key is equivalent). -/
def regErase : Registry → Nat → Registry
  | [], _ => []
  | (k, v) :: rest, sid => if k = sid then regErase rest sid else (k, v) :: regErase rest sid

/-- The disconnect cleanup:
`if session_id in conversations: del conversations[session_id]`. -/
def regDelete (reg : Registry) (sid : Nat) : Registry :=
  if regHas reg sid then regErase reg sid else reg

/-- Dict assignment `conversations[sid] = v` (insert or overwrite;
lookup-equivalent to the dict operation). -/
def regSet (reg : Registry) (sid : Nat) (v : List Msg) : Registry :=
  (sid, v) :: regErase reg sid

/-- One inbound websocket frame: a JSON envelope whose extracted text
field is `content`; a frame that is not valid JSON (`json.loads`
raises `JSONDecodeError`, and the handler catches only
`WebSocketDisconnect`, so the handler exits without cleanup); or the
disconnect itself. -/
inductive Inbound where
  | frame (content : List Char) : Inbound
  | malformed : Inbound
  | disconnect : Inbound
  deriving DecidableEq

/-- The `/ws/voice` receive loop from a given registry state: frames
are processed strictly one at a time; `disconnect` runs the
`WebSocketDisconnect` cleanup and ends the connection; `malformed`
ends the handler with no cleanup (the raised decode error is not
caught).  An exhausted input list models a connection still open. -/
def voiceLoop (agent : AgentFn) (tts : TtsFn) (sid : Nat) :
    Registry → List Inbound → List Event × Registry
  | reg, [] => ([], reg)
  | reg, Inbound.disconnect :: _ => ([], regDelete reg sid)
  | reg, Inbound.malformed :: _ => ([], reg)
  | reg, Inbound.frame c :: rest =>
      let t := voiceTurn agent tts ((regLookup reg sid).getD []) c
      let r := voiceLoop agent tts sid (regSet reg sid t.1) rest
      (t.2 ++ r.1, r.2)

/-- The `/ws` receive loop (text chat), same shape with `textTurn`. -/
def textLoop (agent : AgentFn) (sid : Nat) :
    Registry → List Inbound → List Event × Registry
  | reg, [] => ([], reg)
  | reg, Inbound.disconnect :: _ => ([], regDelete reg sid)
  | reg, Inbound.malformed :: _ => ([], reg)
  | reg, Inbound.frame c :: rest =>
      let t := textTurn agent ((regLookup reg sid).getD []) c
      let r := textLoop agent sid (regSet reg sid t.1) rest
      (t.2 ++ r.1, r.2)

/-- The welcome text streamed when `/ws/voice` accepts. -/
def welcomeVoice : List Char :=
  "Welcome to ProVia Doors! I\x27m ready to help you find the perfect door.".data

/-- `websocket_voice_endpoint`: accept, register the session with an
empty transcript, stream the welcome, then run the receive loop.
Returns all outbound events together with the final registry. -/
def websocket_voice_endpoint (agent : AgentFn) (tts : TtsFn) (sid : Nat)
    (reg : Registry) (inbound : List Inbound) : List Event × Registry :=
  let r := voiceLoop agent tts sid (regSet reg sid []) inbound
  (stream_response_with_audio tts welcomeVoice ++ r.1, r.2)

/-- One `shopping_cart` entry (`agent.py`); the float `price` is
modelled as a rational. -/
structure CartItem where
  id : List Char
  name : List Char
  price : Rat
  quantity : Nat
  deriving DecidableEq

/-- The furniture server's process-wide mutable state: the
`conversations` dict and the single module-level `shopping_cart` list
shared by every connection. -/
structure FurnitureState where
  conversations : Registry
  shopping_cart : List CartItem
  deriving DecidableEq

/-- The accept prefix of `/ws` in `server.py`: register the session
with an empty transcript and clear the shared cart
(`shopping_cart.clear()`). -/
def websocket_endpoint_accept (st : FurnitureState) (sid : Nat) : FurnitureState :=
  { conversations := regSet st.conversations sid [],
    shopping_cart := [] }

/-- Recognizer for `stream_start` events. -/
def isStartEv : Event → Bool
  | Event.streamStart => true
  | _ => false

/-- Recognizer for `stream_end` events. -/
def isEndEv : Event → Bool
  | Event.streamEnd _ => true
  | _ => false

/-- Recognizer for `stream_audio` events. -/
def isAudioEv : Event → Bool
  | Event.streamAudio _ _ _ => true
  | _ => false

/-- Recognizer for the inter-sentence sleep. -/
def isPauseEv : Event → Bool
  | Event.pause _ => true
  | _ => false

/-- Recognizer for `error` events. -/
def isErrorEv : Event → Bool
  | Event.errorMsg _ => true
  | _ => false

/-- The `word` field of a `stream_word` event, empty for other events. -/
def wordField : Event → List Char
  | Event.streamWord w _ _ => w
  | _ => []

/-- Concatenation of the `word` fields of all `stream_word` events of a
stream, in emission order. -/
def wordFieldConcat (evs : List Event) : List Char := (evs.map wordField).flatten

/-- Tokens joined by single spaces: the shape to which the word fields
of one sentence concatenate. -/
def joinSp : List (List Char) → List Char
  | [] => []
  | [w] => w
  | w :: rest => w ++ ' ' :: joinSp rest

/-- A speech collaborator that always fails. -/
def ttsNone : TtsFn := fun _ => none

/-- A speech collaborator failing exactly on the sentence `A.`. -/
def ttsFailFirst : TtsFn := fun s => if s = "A.".data then none else some "AUDIO".data

/-- An agent collaborator that always answers `Yes.`. -/
def agentOkYes : AgentFn := fun _ => Except.ok "Yes.".data

/-- An agent collaborator that always raises. -/
def agentBoom : AgentFn := fun _ => Except.error "boom".data

/-! ### Tokenization lemmas -/

theorem wordsAux_append_space (c : Char) (hc : isSpace c = true) (y : List Char) :
    ∀ (x : List Char) (acc : List Char),
      wordsAux (x ++ c :: y) acc = wordsAux x acc ++ wordsAux y []
  | [], acc => by cases acc <;> simp [wordsAux, hc]
  | d :: x', acc => by
      cases hd : isSpace d with
      | true =>
          cases acc with
          | nil => simpa [wordsAux, hd] using wordsAux_append_space c hc y x' []
          | cons a as => simpa [wordsAux, hd] using wordsAux_append_space c hc y x' []
      | false => simpa [wordsAux, hd] using wordsAux_append_space c hc y x' (d :: acc)

theorem pyWords_space_cons (c : Char) (hc : isSpace c = true) (y : List Char) :
    pyWords (c :: y) = pyWords y := by
  simp [pyWords, wordsAux, hc]

theorem pyWords_append_space (x : List Char) (c : Char) (hc : isSpace c = true)
    (y : List Char) : pyWords (x ++ c :: y) = pyWords x ++ pyWords y := by
  simpa [pyWords] using wordsAux_append_space c hc y x []

theorem pyWords_of_blank : ∀ (s : List Char), isBlank s = true → pyWords s = []
  | [], _ => rfl
  | c :: s', h => by
      have h' : isSpace c = true ∧ s'.all isSpace = true := by
        simpa [isBlank, List.all_cons] using h
      rw [pyWords_space_cons c h'.1]
      exact pyWords_of_blank s' h'.2

/-- The sentence splitter only discards whitespace (the delimiter runs),
so flattening the per-sentence token lists recovers the token list of
the whole text.  First component: the delimiter-consuming state;
second: the normal state with current reversed fragment `acc`. -/
theorem splitSentencesAux_words :
    ∀ (l : List Char),
      (((splitSentencesAux l [] true).map pyWords).flatten = pyWords l)
      ∧ ∀ (acc : List Char),
          ((splitSentencesAux l acc false).map pyWords).flatten
            = pyWords (acc.reverse ++ l)
  | [] => by
      constructor
      · simp [splitSentencesAux, pyWords, wordsAux]
      · intro acc; simp [splitSentencesAux]
  | c :: rest => by
      obtain ⟨ih1, ih2⟩ := splitSentencesAux_words rest
      constructor
      · cases hc : isSpace c with
        | true =>
            rw [show splitSentencesAux (c :: rest) [] true
                  = splitSentencesAux rest [] true by simp [splitSentencesAux, hc]]
            rw [ih1, pyWords_space_cons c hc]
        | false =>
            rw [show splitSentencesAux (c :: rest) [] true
                  = splitSentencesAux rest [c] false by simp [splitSentencesAux, hc]]
            simpa using ih2 [c]
      · intro acc
        cases hcb : (isSpace c && headIsSentEnd acc) with
        | true =>
            have hc : isSpace c = true := (Bool.and_eq_true _ _ |>.mp hcb).1
            rw [show splitSentencesAux (c :: rest) acc false
                  = acc.reverse :: splitSentencesAux rest [] true by
                simp [splitSentencesAux, hcb]]
            simp only [List.map_cons, List.flatten_cons, ih1]
            rw [pyWords_append_space acc.reverse c hc rest]
        | false =>
            rw [show splitSentencesAux (c :: rest) acc false
                  = splitSentencesAux rest (c :: acc) false by
                simp [splitSentencesAux, hcb]]
            rw [ih2 (c :: acc)]
            simp

theorem splitSentences_words_flatten (t : List Char) :
    ((splitSentences t).map pyWords).flatten = pyWords t := by
  simpa [splitSentences] using (splitSentencesAux_words t).2 []

theorem filter_blank_words_flatten :
    ∀ (L : List (List Char)),
      ((L.filter (fun s => !isBlank s)).map pyWords).flatten
        = (L.map pyWords).flatten
  | [] => rfl
  | s :: L' => by
      cases hb : isBlank s with
      | true =>
          simp [List.filter_cons, hb, pyWords_of_blank s hb,
            filter_blank_words_flatten L']
      | false =>
          simp [List.filter_cons, hb, filter_blank_words_flatten L']

/-! ### Stream-shape lemmas -/

theorem wordEvents_mem :
    ∀ (d i : Nat) (ws : List (List Char)) (e : Event),
      e ∈ wordEvents d i ws → ∃ w j, e = Event.streamWord w j d
  | _, _, [], _ => by simp [wordEvents]
  | d, i, [w], e => by
      simp only [wordEvents, List.mem_singleton]
      rintro rfl
      exact ⟨w, i, rfl⟩
  | d, i, w :: x :: xs, e => by
      simp only [wordEvents, List.mem_cons]
      rintro (rfl | h)
      · exact ⟨w ++ [' '], i, rfl⟩
      · exact wordEvents_mem d (i + 1) (x :: xs) e h

theorem wordFieldConcat_cons (e : Event) (l : List Event) :
    wordFieldConcat (e :: l) = wordField e ++ wordFieldConcat l := by
  simp [wordFieldConcat]

theorem wordFieldConcat_append (l1 l2 : List Event) :
    wordFieldConcat (l1 ++ l2) = wordFieldConcat l1 ++ wordFieldConcat l2 := by
  simp [wordFieldConcat]

theorem wordFieldConcat_wordEvents :
    ∀ (d i : Nat) (ws : List (List Char)),
      wordFieldConcat (wordEvents d i ws) = joinSp ws
  | _, _, [] => rfl
  | d, i, [w] => by simp [wordEvents, joinSp, wordFieldConcat, wordField]
  | d, i, w :: x :: xs => by
      rw [show wordEvents d i (w :: x :: xs)
            = Event.streamWord (w ++ [' ']) i d :: wordEvents d (i + 1) (x :: xs) from rfl]
      rw [wordFieldConcat_cons, wordFieldConcat_wordEvents d (i + 1) (x :: xs)]
      show (w ++ [' ']) ++ joinSp (x :: xs) = joinSp (w :: x :: xs)
      rw [show joinSp (w :: x :: xs) = w ++ ' ' :: joinSp (x :: xs) from rfl]
      simp

theorem wordFieldConcat_streamSentence (tts : TtsFn) (s : List Char) :
    wordFieldConcat (streamSentence tts s) = joinSp (pyWords s) := by
  cases h : tts s with
  | none => simp [streamSentence, h, wordFieldConcat_wordEvents]
  | some a =>
      simp only [streamSentence, h]
      rw [wordFieldConcat_append, wordFieldConcat_wordEvents]
      simp [wordFieldConcat, wordField]

theorem wordFieldConcat_flatten_map (tts : TtsFn) :
    ∀ (L : List (List Char)),
      wordFieldConcat ((L.map (streamSentence tts)).flatten)
        = (L.map (fun s => joinSp (pyWords s))).flatten
  | [] => rfl
  | s :: L' => by
      simp only [List.map_cons, List.flatten_cons, wordFieldConcat_append,
        wordFieldConcat_streamSentence, wordFieldConcat_flatten_map tts L']

/-! ### Event-counting lemmas -/

theorem countP_wordEvents_zero (p : Event → Bool)
    (hp : ∀ w i d, p (Event.streamWord w i d) = false) :
    ∀ (d i : Nat) (ws : List (List Char)), (wordEvents d i ws).countP p = 0
  | _, _, [] => rfl
  | d, i, [w] => by simp [wordEvents, List.countP_cons, hp]
  | d, i, w :: x :: xs => by
      rw [show wordEvents d i (w :: x :: xs)
            = Event.streamWord (w ++ [' ']) i d :: wordEvents d (i + 1) (x :: xs) from rfl]
      simp [List.countP_cons, hp, countP_wordEvents_zero p hp d (i + 1) (x :: xs)]

theorem countP_streamSentence_zero (p : Event → Bool) (tts : TtsFn) (s : List Char)
    (hw : ∀ w i d, p (Event.streamWord w i d) = false)
    (ha : ∀ a f n, p (Event.streamAudio a f n) = false)
    (hpz : ∀ ms, p (Event.pause ms) = false) :
    (streamSentence tts s).countP p = 0 := by
  cases h : tts s <;>
    simp [streamSentence, h, List.countP_append, List.countP_cons, hw, ha, hpz,
      countP_wordEvents_zero p hw]

theorem countP_flatten_map_zero (p : Event → Bool) (tts : TtsFn)
    (h : ∀ s, (streamSentence tts s).countP p = 0) :
    ∀ (L : List (List Char)), ((L.map (streamSentence tts)).flatten).countP p = 0
  | [] => rfl
  | s :: L' => by
      simp [List.countP_append, h, countP_flatten_map_zero p tts h L']

theorem streamSentence_countP_isStartEv (tts : TtsFn) (s : List Char) :
    (streamSentence tts s).countP isStartEv = 0 :=
  countP_streamSentence_zero _ tts s (fun _ _ _ => rfl) (fun _ _ _ => rfl) (fun _ => rfl)

theorem streamSentence_countP_isEndEv (tts : TtsFn) (s : List Char) :
    (streamSentence tts s).countP isEndEv = 0 :=
  countP_streamSentence_zero _ tts s (fun _ _ _ => rfl) (fun _ _ _ => rfl) (fun _ => rfl)

theorem streamSentence_countP_isErrorEv (tts : TtsFn) (s : List Char) :
    (streamSentence tts s).countP isErrorEv = 0 :=
  countP_streamSentence_zero _ tts s (fun _ _ _ => rfl) (fun _ _ _ => rfl) (fun _ => rfl)

theorem stream_countP_isStartEv (tts : TtsFn) (text : List Char) :
    (stream_response_with_audio tts text).countP isStartEv = 1 := by
  simp [stream_response_with_audio, List.countP_cons, List.countP_append,
    countP_flatten_map_zero isStartEv tts (streamSentence_countP_isStartEv tts),
    isStartEv]

theorem stream_countP_isEndEv (tts : TtsFn) (text : List Char) :
    (stream_response_with_audio tts text).countP isEndEv = 1 := by
  simp [stream_response_with_audio, List.countP_cons, List.countP_append,
    countP_flatten_map_zero isEndEv tts (streamSentence_countP_isEndEv tts),
    isEndEv, isStartEv]

theorem stream_countP_isErrorEv (tts : TtsFn) (text : List Char) :
    (stream_response_with_audio tts text).countP isErrorEv = 0 := by
  simp [stream_response_with_audio, List.countP_cons, List.countP_append,
    countP_flatten_map_zero isErrorEv tts (streamSentence_countP_isErrorEv tts),
    isErrorEv]

theorem countP_pause_streamSentence (tts : TtsFn) (s : List Char) :
    (streamSentence tts s).countP isPauseEv = if (tts s).isSome then 1 else 0 := by
  cases h : tts s <;>
    simp [streamSentence, h, List.countP_append, List.countP_cons, isPauseEv,
      countP_wordEvents_zero isPauseEv (fun _ _ _ => rfl)]

theorem countP_pause_flatten (tts : TtsFn) :
    ∀ (L : List (List Char)),
      ((L.map (streamSentence tts)).flatten).countP isPauseEv
        = L.countP (fun s => (tts s).isSome)
  | [] => rfl
  | s :: L' => by
      simp only [List.map_cons, List.flatten_cons, List.countP_append,
        List.countP_cons, countP_pause_streamSentence, countP_pause_flatten tts L']
      cases h : (tts s).isSome <;> simp [h, Nat.add_comm]

theorem stream_countP_isPauseEv (tts : TtsFn) (text : List Char) :
    (stream_response_with_audio tts text).countP isPauseEv
      = ((splitSentences (stripDecorations text)).filter
          (fun s => !isBlank s)).countP (fun s => (tts s).isSome) := by
  simp only [stream_response_with_audio, List.countP_cons, List.countP_append]
  rw [countP_pause_flatten]
  simp [isPauseEv]

theorem stream_getLast (tts : TtsFn) (text : List Char) :
    (stream_response_with_audio tts text).getLast? = some (Event.streamEnd text) := by
  rw [stream_response_with_audio,
    show Event.streamStart ::
        (((splitSentences (stripDecorations text)).filter (fun s => !isBlank s)).map
            (streamSentence tts)).flatten
          ++ [Event.streamEnd text]
      = (Event.streamStart ::
          (((splitSentences (stripDecorations text)).filter (fun s => !isBlank s)).map
              (streamSentence tts)).flatten)
          ++ [Event.streamEnd text] from by simp]
  exact List.getLast?_concat _

/-! ### Registry lemmas -/

theorem regLookup_regSet (reg : Registry) (sid : Nat) (v : List Msg) :
    regLookup (regSet reg sid v) sid = some v := by
  simp [regSet, regLookup]

theorem regLookup_regErase :
    ∀ (reg : Registry) (sid : Nat), regLookup (regErase reg sid) sid = none
  | [], _ => rfl
  | (k, v) :: rest, sid => by
      by_cases h : k = sid
      · simp [regErase, h, regLookup_regErase rest sid]
      · simp [regErase, h, regLookup, regLookup_regErase rest sid]

theorem regHas_regErase :
    ∀ (reg : Registry) (sid : Nat), regHas (regErase reg sid) sid = false
  | [], _ => rfl
  | (k, v) :: rest, sid => by
      by_cases h : k = sid <;> simp [regErase, h, regHas, regHas_regErase rest sid]

theorem regLookup_of_not_has :
    ∀ (reg : Registry) (sid : Nat), regHas reg sid = false → regLookup reg sid = none
  | [], _, _ => rfl
  | (k, v) :: rest, sid, h => by
      by_cases hk : k = sid
      · simp [regHas, hk] at h
      · simp only [regHas, if_neg hk] at h
        simp [regLookup, hk, regLookup_of_not_has rest sid h]

theorem regLookup_regDelete (reg : Registry) (sid : Nat) :
    regLookup (regDelete reg sid) sid = none := by
  by_cases h : regHas reg sid = true
  · simp [regDelete, h, regLookup_regErase]
  · have h' : regHas reg sid = false := by simpa using h
    simp [regDelete, h', regLookup_of_not_has reg sid h']

theorem regDelete_idem (reg : Registry) (sid : Nat) :
    regDelete (regDelete reg sid) sid = regDelete reg sid := by
  by_cases h : regHas reg sid = true
  · simp [regDelete, h, regHas_regErase]
  · have h' : regHas reg sid = false := by simpa using h
    simp [regDelete, h']

/-! ### Turn and loop lemmas -/

theorem textTurn_extends (agent : AgentFn) (conv : List Msg) (u : List Char) :
    conv <+: (textTurn agent conv u).1 := by
  by_cases hb : isBlank u = true
  · simp [textTurn, hb]
  · have hb' : isBlank u = false := by simpa using hb
    cases h : agent (conv ++ [userMsg u]) <;> simp [textTurn, hb', h]

theorem voiceTurn_extends (agent : AgentFn) (tts : TtsFn) (conv : List Msg) (u : List Char) :
    conv <+: (voiceTurn agent tts conv u).1 := by
  by_cases hb : isBlank u = true
  · simp [voiceTurn, hb]
  · have hb' : isBlank u = false := by simpa using hb
    cases h : agent (conv ++ [userMsg u]) <;> simp [voiceTurn, hb', h]

theorem voiceLoop_transcript_extends (agent : AgentFn) (tts : TtsFn) (sid : Nat) :
    ∀ (frames : List Inbound) (reg : Registry),
      (∀ f ∈ frames, ∃ c, f = Inbound.frame c) →
      ((regLookup reg sid).getD [])
        <+: ((regLookup (voiceLoop agent tts sid reg frames).2 sid).getD [])
  | [], reg, _ => by simp [voiceLoop]
  | f :: fs, reg, h => by
      obtain ⟨c, rfl⟩ := h f (by simp)
      have h' : ∀ g ∈ fs, ∃ c, g = Inbound.frame c := fun g hg => h g (by simp [hg])
      have step := voiceTurn_extends agent tts ((regLookup reg sid).getD []) c
      have ih := voiceLoop_transcript_extends agent tts sid fs
        (regSet reg sid (voiceTurn agent tts ((regLookup reg sid).getD []) c).1) h'
      rw [regLookup_regSet] at ih
      exact step.trans ih

theorem voiceLoop_disconnect_lookup (agent : AgentFn) (tts : TtsFn) (sid : Nat)
    (rest : List Inbound) :
    ∀ (fs : List Inbound) (reg : Registry),
      (∀ f ∈ fs, ∃ c, f = Inbound.frame c) →
      regLookup (voiceLoop agent tts sid reg (fs ++ Inbound.disconnect :: rest)).2 sid
        = none
  | [], reg, _ => by simp [voiceLoop, regLookup_regDelete]
  | f :: fs', reg, h => by
      obtain ⟨c, rfl⟩ := h f (by simp)
      exact voiceLoop_disconnect_lookup agent tts sid rest fs'
        (regSet reg sid (voiceTurn agent tts ((regLookup reg sid).getD []) c).1)
        (fun g hg => h g (by simp [hg]))

theorem textLoop_disconnect_lookup (agent : AgentFn) (sid : Nat)
    (rest : List Inbound) :
    ∀ (fs : List Inbound) (reg : Registry),
      (∀ f ∈ fs, ∃ c, f = Inbound.frame c) →
      regLookup (textLoop agent sid reg (fs ++ Inbound.disconnect :: rest)).2 sid
        = none
  | [], reg, _ => by simp [textLoop, regLookup_regDelete]
  | f :: fs', reg, h => by
      obtain ⟨c, rfl⟩ := h f (by simp)
      exact textLoop_disconnect_lookup agent sid rest fs'
        (regSet reg sid (textTurn agent ((regLookup reg sid).getD []) c).1)
        (fun g hg => h g (by simp [hg]))

/-! ### Claim C1 -/

/-- C1 (counterexample): for the response `Hi. Bye.` (no decoration
characters, so the stripped text is the text itself) the concatenated
`word` fields give `Hi.Bye.`, not the original `Hi. Bye.`: the
whitespace at the sentence boundary is lost, so the concatenation does
not preserve the original inter-word spacing. -/
theorem C1_counterexample :
    wordFieldConcat (stream_response_with_audio ttsNone ("Hi. Bye.".data))
      = "Hi.Bye.".data
    ∧ wordFieldConcat (stream_response_with_audio ttsNone ("Hi. Bye.".data))
        ≠ stripDecorations ("Hi. Bye.".data) := by
  decide

/-- C1 (amended): concatenating the `word` fields of all stream-word
events yields, for each non-blank sentence of the decoration-stripped
text, its whitespace-delimited words joined by single spaces, the
sentences concatenated without separator; and no word is lost: the
per-sentence word lists flatten to exactly the word list of the whole
decoration-stripped text. -/
theorem C1_amended_word_concat (tts : TtsFn) (text : List Char) :
    wordFieldConcat (stream_response_with_audio tts text)
      = (((splitSentences (stripDecorations text)).filter (fun s => !isBlank s)).map
          (fun s => joinSp (pyWords s))).flatten
    ∧ (((splitSentences (stripDecorations text)).filter (fun s => !isBlank s)).map
          pyWords).flatten = pyWords (stripDecorations text)
    ∧ ((splitSentences (stripDecorations text)).map pyWords).flatten
        = pyWords (stripDecorations text) := by
  refine ⟨?_, ?_, splitSentences_words_flatten _⟩
  · rw [stream_response_with_audio, wordFieldConcat_append, wordFieldConcat_cons,
      wordFieldConcat_flatten_map]
    simp [wordField, wordFieldConcat]
  · rw [filter_blank_words_flatten, splitSentences_words_flatten]

/-! ### Claim C2 -/

/-- C2 (counterexample): for the response `*Hi*` the unique stream-end
event carries the original text `*Hi*`, not the decoration-stripped
`Hi`; no stream-end event with the stripped text is ever emitted. -/
theorem C2_counterexample :
    (stream_response_with_audio ttsNone ("*Hi*".data)).countP isEndEv = 1
    ∧ (stream_response_with_audio ttsNone ("*Hi*".data)).getLast?
        = some (Event.streamEnd ("*Hi*".data))
    ∧ Event.streamEnd (stripDecorations ("*Hi*".data))
        ∉ stream_response_with_audio ttsNone ("*Hi*".data) := by
  decide

/-- C2 (amended): every streamed turn emits exactly one stream-start
and exactly one stream-end event, the stream-start first and the
stream-end last; the stream-end's `fullText` field carries the original
response text, decorations included (not the decoration-stripped
text). -/
theorem C2_amended_stream_markers (tts : TtsFn) (text : List Char) :
    (stream_response_with_audio tts text).countP isStartEv = 1
    ∧ (stream_response_with_audio tts text).countP isEndEv = 1
    ∧ (stream_response_with_audio tts text).head? = some Event.streamStart
    ∧ (stream_response_with_audio tts text).getLast? = some (Event.streamEnd text) :=
  ⟨stream_countP_isStartEv tts text, stream_countP_isEndEv tts text,
    by simp [stream_response_with_audio], stream_getLast tts text⟩

/-! ### Claim C7 -/

/-- C7 (counterexample): with two consecutive sentences `A.` and `B.`
and speech synthesis failing for both, no pause event at all is
emitted: the 100 ms inter-sentence sleep is not inserted when the
failure branch is taken. -/
theorem C7_counterexample :
    ((splitSentences (stripDecorations ("A. B.".data))).filter
        (fun s => !isBlank s)).length = 2
    ∧ (stream_response_with_audio ttsNone ("A. B.".data)).countP isPauseEv = 0 := by
  decide

/-- C7 (amended): the 100 ms sleep follows exactly the sentences whose
speech synthesis succeeded — one pause per successfully synthesized
sentence (including the last one), placed after that sentence's audio
event, and no pause after a sentence whose synthesis failed. -/
theorem C7_amended_pause_after_success (tts : TtsFn) (text : List Char) :
    (stream_response_with_audio tts text).countP isPauseEv
      = ((splitSentences (stripDecorations text)).filter
          (fun s => !isBlank s)).countP (fun s => (tts s).isSome)
    ∧ (∀ s a, tts s = some a →
        (streamSentence tts s).getLast? = some (Event.pause 100))
    ∧ (∀ s, tts s = none → (streamSentence tts s).countP isPauseEv = 0) := by
  refine ⟨stream_countP_isPauseEv tts text, ?_, ?_⟩
  · intro s a ha
    rw [show streamSentence tts s
          = wordEvents 350 0 (pyWords s)
              ++ [Event.streamAudio a mp3Format (pyWords s).length, Event.pause 100] by
        simp [streamSentence, ha]]
    rw [show wordEvents 350 0 (pyWords s)
          ++ [Event.streamAudio a mp3Format (pyWords s).length, Event.pause 100]
        = (wordEvents 350 0 (pyWords s)
            ++ [Event.streamAudio a mp3Format (pyWords s).length]) ++ [Event.pause 100] by
      simp]
    exact List.getLast?_concat _
  · intro s hn
    simp [countP_pause_streamSentence, hn]

/-- C7 (witness): the amended theorem applied to the text `A. B.` with
synthesis succeeding for the second sentence. -/
theorem C7_witness :
    (streamSentence ttsFailFirst ("B.".data)).getLast? = some (Event.pause 100) :=
  (C7_amended_pause_after_success ttsFailFirst ("A. B.".data)).2.1
    ("B.".data) ("AUDIO".data) (by decide)

/-! ### Claim C4 -/

/-- C4: per-sentence graceful degradation.  For every sentence the
synchronizer processes: if synthesis fails, the sentence contributes
exactly its word events with delay 100 and neither an audio event nor a
pause; if synthesis succeeds, it contributes its word events with delay
350 followed by exactly one audio event whose `wordCount` is the number
of words of the sentence; in either case no error event ever appears in
the stream, and the stream is the concatenation over all processed
sentences (a failure never stops the following sentences). -/
theorem C4_sentence_degradation (tts : TtsFn) (text s : List Char)
    (h : s ∈ (splitSentences (stripDecorations text)).filter (fun x => !isBlank x)) :
    (tts s = none →
        streamSentence tts s = wordEvents 100 0 (pyWords s)
        ∧ (∀ a f n, Event.streamAudio a f n ∉ streamSentence tts s)
        ∧ (∀ w i d, Event.streamWord w i d ∈ streamSentence tts s → d = 100))
    ∧ (∀ audio, tts s = some audio →
        streamSentence tts s
          = wordEvents 350 0 (pyWords s)
              ++ [Event.streamAudio audio mp3Format (pyWords s).length, Event.pause 100]
        ∧ (streamSentence tts s).countP isAudioEv = 1
        ∧ (∀ w i d, Event.streamWord w i d ∈ streamSentence tts s → d = 350))
    ∧ ((stream_response_with_audio tts text).countP isErrorEv = 0)
    ∧ (stream_response_with_audio tts text
        = Event.streamStart ::
            (((splitSentences (stripDecorations text)).filter (fun x => !isBlank x)).map
                (streamSentence tts)).flatten
          ++ [Event.streamEnd text]) := by
  refine ⟨?_, ?_, stream_countP_isErrorEv tts text, rfl⟩
  · intro hn
    have hs : streamSentence tts s = wordEvents 100 0 (pyWords s) := by
      simp [streamSentence, hn]
    refine ⟨hs, ?_, ?_⟩
    · intro a f n hmem
      rw [hs] at hmem
      obtain ⟨w, j, hw⟩ := wordEvents_mem _ _ _ _ hmem
      simp at hw
    · intro w i d hmem
      rw [hs] at hmem
      obtain ⟨w', j, hw⟩ := wordEvents_mem _ _ _ _ hmem
      simp only [Event.streamWord.injEq] at hw
      exact hw.2.2
  · intro audio ha
    have hs : streamSentence tts s
        = wordEvents 350 0 (pyWords s)
            ++ [Event.streamAudio audio mp3Format (pyWords s).length, Event.pause 100] := by
      simp [streamSentence, ha]
    refine ⟨hs, ?_, ?_⟩
    · rw [hs]
      simp [List.countP_append, List.countP_cons, isAudioEv,
        countP_wordEvents_zero isAudioEv (fun _ _ _ => rfl)]
    · intro w i d hmem
      rw [hs] at hmem
      rcases List.mem_append.mp hmem with hmem' | hmem'
      · obtain ⟨w', j, hw⟩ := wordEvents_mem _ _ _ _ hmem'
        simp only [Event.streamWord.injEq] at hw
        exact hw.2.2
      · simp at hmem'

/-- C4 (witness): the theorem applied to the text `A. B.` with
synthesis failing for the first sentence. -/
theorem C4_witness :
    streamSentence ttsFailFirst ("A.".data) = wordEvents 100 0 (pyWords ("A.".data)) :=
  ((C4_sentence_degradation ttsFailFirst ("A. B.".data) ("A.".data) (by decide)).1
    (by decide)).1

/-! ### Claim C5 -/

/-- C5: within one connection each non-blank turn's outbound events are
strictly ordered: the processing-start indicator first, then either the
complete stream-start…stream-end sequence (agent success) or the single
error event (agent failure), then the processing-end indicator, which
is always the last event of the turn; and the receive loop emits the
whole turn (through its terminal indicator) before any event of the
following inbound frames. -/
theorem C5_turn_event_order (agent : AgentFn) (tts : TtsFn) (conv : List Msg)
    (u : List Char) (h : isBlank u = false) :
    ((voiceTurn agent tts conv u).2.head? = some (Event.processing true))
    ∧ ((voiceTurn agent tts conv u).2.getLast? = some (Event.processing false))
    ∧ (∀ r, agent (conv ++ [userMsg u]) = Except.ok r →
        (voiceTurn agent tts conv u).2
          = Event.processing true :: stream_response_with_audio tts r
              ++ [Event.processing false])
    ∧ (∀ e, agent (conv ++ [userMsg u]) = Except.error e →
        (voiceTurn agent tts conv u).2
          = [Event.processing true, Event.errorMsg (errWrapVoice e),
              Event.processing false])
    ∧ (∀ (sid : Nat) (reg : Registry) (rest : List Inbound),
        voiceLoop agent tts sid reg (Inbound.frame u :: rest)
          = ((voiceTurn agent tts ((regLookup reg sid).getD []) u).2
                ++ (voiceLoop agent tts sid
                      (regSet reg sid
                        (voiceTurn agent tts ((regLookup reg sid).getD []) u).1)
                      rest).1,
             (voiceLoop agent tts sid
                (regSet reg sid
                  (voiceTurn agent tts ((regLookup reg sid).getD []) u).1)
                rest).2)) := by
  refine ⟨?_, ?_, ?_, ?_, fun sid reg rest => rfl⟩
  · cases hr : agent (conv ++ [userMsg u]) <;> simp [voiceTurn, h, hr]
  · cases hr : agent (conv ++ [userMsg u]) with
    | error e => simp [voiceTurn, h, hr]
    | ok r =>
        rw [show (voiceTurn agent tts conv u).2
              = (Event.processing true :: stream_response_with_audio tts r)
                  ++ [Event.processing false] by simp [voiceTurn, h, hr]]
        exact List.getLast?_concat _
  · intro r hr; simp [voiceTurn, h, hr]
  · intro e he; simp [voiceTurn, h, he]

/-- C5 (witness): the theorem applied to a failing agent on the input
`hi`: the turn still ends with the processing-end indicator. -/
theorem C5_witness :
    (voiceTurn agentBoom ttsNone [] ("hi".data)).2.getLast?
      = some (Event.processing false) :=
  (C5_turn_event_order agentBoom ttsNone [] ("hi".data) (by decide)).2.1

/-! ### Claim C3 -/

/-- C3: turn outcome versus transcript.  For every non-blank user text:
on agent success both endpoints append exactly the user message and
then one assistant message (one more entry than before the agent call,
with role assistant) and emit no error event; on agent failure the
transcript keeps only the added user message (one more entry than
before the turn, role user), exactly one error event is emitted whose
content wraps the underlying error description, and the receive loop
goes on to the next inbound frame (the connection stays usable). -/
theorem C3_turn_transcript (agent : AgentFn) (tts : TtsFn) (conv : List Msg)
    (u : List Char) (h : isBlank u = false) :
    (∀ r, agent (conv ++ [userMsg u]) = Except.ok r →
        (textTurn agent conv u).1 = conv ++ [userMsg u, asstMsg r]
        ∧ (voiceTurn agent tts conv u).1 = conv ++ [userMsg u, asstMsg r]
        ∧ (textTurn agent conv u).2.countP isErrorEv = 0
        ∧ (voiceTurn agent tts conv u).2.countP isErrorEv = 0)
    ∧ (∀ e, agent (conv ++ [userMsg u]) = Except.error e →
        (textTurn agent conv u).1 = conv ++ [userMsg u]
        ∧ (voiceTurn agent tts conv u).1 = conv ++ [userMsg u]
        ∧ (textTurn agent conv u).2
            = [Event.typing true, Event.errorMsg (errWrapText e), Event.typing false]
        ∧ (voiceTurn agent tts conv u).2
            = [Event.processing true, Event.errorMsg (errWrapVoice e),
                Event.processing false]
        ∧ (textTurn agent conv u).2.countP isErrorEv = 1
        ∧ (voiceTurn agent tts conv u).2.countP isErrorEv = 1)
    ∧ (∀ e : List Char, e <:+: errWrapText e ∧ e <:+: errWrapVoice e)
    ∧ (∀ (sid : Nat) (reg : Registry) (rest : List Inbound),
        (textLoop agent sid reg (Inbound.frame u :: rest)).1
          = (textTurn agent ((regLookup reg sid).getD []) u).2
              ++ (textLoop agent sid
                    (regSet reg sid
                      (textTurn agent ((regLookup reg sid).getD []) u).1)
                    rest).1) := by
  refine ⟨?_, ?_, ?_, fun sid reg rest => rfl⟩
  · intro r hr
    refine ⟨by simp [textTurn, h, hr], by simp [voiceTurn, h, hr], ?_, ?_⟩
    · simp [textTurn, h, hr, List.countP_cons, isErrorEv]
    · simp [voiceTurn, h, hr, List.countP_cons, List.countP_append, isErrorEv,
        stream_countP_isErrorEv]
  · intro e he
    refine ⟨by simp [textTurn, h, he], by simp [voiceTurn, h, he],
      by simp [textTurn, h, he], by simp [voiceTurn, h, he], ?_, ?_⟩
    · simp [textTurn, h, he, List.countP_cons, isErrorEv]
    · simp [voiceTurn, h, he, List.countP_cons, isErrorEv]
  · intro e
    exact ⟨⟨"I apologize, but I encountered an error: ".data,
        ". Please try again.".data, by simp [errWrapText]⟩,
      ⟨"Sorry, I encountered an error: ".data, [], by simp [errWrapVoice]⟩⟩

/-- C3 (witness): a successful turn on the input `hi` appends the user
message and one assistant answer. -/
theorem C3_witness :
    (textTurn agentOkYes [] ("hi".data)).1
      = [userMsg ("hi".data), asstMsg ("Yes.".data)] := by
  have hc := ((C3_turn_transcript agentOkYes ttsNone [] ("hi".data) (by decide)).1
    ("Yes.".data) rfl).1
  simpa using hc

/-! ### Claim C8 -/

/-- C8: a blank (empty or whitespace-only) user text is silently
dropped by both endpoints: the transcript is unchanged, no event is
emitted, and the outcome does not depend on the agent or speech
collaborators at all (neither is invoked). -/
theorem C8_blank_turn_dropped (agent : AgentFn) (tts : TtsFn) (conv : List Msg)
    (u : List Char) (h : isBlank u = true) :
    textTurn agent conv u = (conv, [])
    ∧ voiceTurn agent tts conv u = (conv, [])
    ∧ (∀ agent2 : AgentFn, textTurn agent2 conv u = textTurn agent conv u)
    ∧ (∀ (agent2 : AgentFn) (tts2 : TtsFn),
        voiceTurn agent2 tts2 conv u = voiceTurn agent tts conv u) := by
  refine ⟨by simp [textTurn, h], by simp [voiceTurn, h], ?_, ?_⟩
  · intro agent2; simp [textTurn, h]
  · intro agent2 tts2; simp [voiceTurn, h]

/-- C8 (witness): the theorem applied to the whitespace-only input. -/
theorem C8_witness :
    textTurn agentOkYes [] (" ".data) = ([], []) :=
  (C8_blank_turn_dropped agentOkYes ttsNone [] (" ".data) (by decide)).1

/-! ### Claim C9 -/

/-- C9: the transcript is append-only.  Every turn of either endpoint
extends the transcript at the end (the old transcript is a prefix of
the new one), adding the user message and at most one assistant
message; over a whole run of the receive loop the session's stored
transcript only ever grows by appending. -/
theorem C9_transcript_append_only (agent : AgentFn) (tts : TtsFn) (conv : List Msg)
    (u : List Char) :
    (conv <+: (textTurn agent conv u).1)
    ∧ (conv <+: (voiceTurn agent tts conv u).1)
    ∧ ((textTurn agent conv u).1 = conv
        ∨ (textTurn agent conv u).1 = conv ++ [userMsg u]
        ∨ ∃ r, (textTurn agent conv u).1 = conv ++ [userMsg u] ++ [asstMsg r])
    ∧ ((voiceTurn agent tts conv u).1 = conv
        ∨ (voiceTurn agent tts conv u).1 = conv ++ [userMsg u]
        ∨ ∃ r, (voiceTurn agent tts conv u).1 = conv ++ [userMsg u] ++ [asstMsg r])
    ∧ (∀ (sid : Nat) (reg : Registry) (frames : List Inbound),
        (∀ f ∈ frames, ∃ c, f = Inbound.frame c) →
        ((regLookup reg sid).getD [])
          <+: ((regLookup (voiceLoop agent tts sid reg frames).2 sid).getD [])) := by
  refine ⟨textTurn_extends agent conv u, voiceTurn_extends agent tts conv u, ?_, ?_,
    fun sid reg frames hf => voiceLoop_transcript_extends agent tts sid frames reg hf⟩
  · by_cases hb : isBlank u = true
    · exact Or.inl (by simp [textTurn, hb])
    · have hb' : isBlank u = false := by simpa using hb
      cases hr : agent (conv ++ [userMsg u]) with
      | ok r => exact Or.inr (Or.inr ⟨r, by simp [textTurn, hb', hr]⟩)
      | error e => exact Or.inr (Or.inl (by simp [textTurn, hb', hr]))
  · by_cases hb : isBlank u = true
    · exact Or.inl (by simp [voiceTurn, hb])
    · have hb' : isBlank u = false := by simpa using hb
      cases hr : agent (conv ++ [userMsg u]) with
      | ok r => exact Or.inr (Or.inr ⟨r, by simp [voiceTurn, hb', hr]⟩)
      | error e => exact Or.inr (Or.inl (by simp [voiceTurn, hb', hr]))

/-- C9 (witness): a concrete instance of the prefix property. -/
theorem C9_witness :
    [] <+: (textTurn agentOkYes [] ("hi".data)).1 :=
  (C9_transcript_append_only agentOkYes ttsNone [] ("hi".data)).1

/-! ### Claim C6 -/

/-- C6 (counterexample): the session entry outlives its connection on
an abnormal exit that is not a `WebSocketDisconnect`: a connection that
accepts (registering session 7) and then receives one malformed frame
exits the handler via the uncaught decode error, and the registry still
maps session 7 afterwards — cleanup is not invoked on this exit path. -/
theorem C6_counterexample :
    regLookup (websocket_voice_endpoint agentBoom ttsNone 7 [] [Inbound.malformed]).2 7
      = some [] := by
  decide

/-- C6 (amended): cleanup runs on the `WebSocketDisconnect` exit path:
for any run whose well-formed frames are followed by a disconnect, the
session is removed and a subsequent lookup fails, in both endpoints;
and the cleanup is idempotent (a no-op when the entry is absent).
Exits through other uncaught exceptions (malformed frames) do not
remove the entry. -/
theorem C6_amended_close_on_disconnect (agent : AgentFn) (tts : TtsFn) (sid : Nat)
    (fs rest : List Inbound) (h : ∀ f ∈ fs, ∃ c, f = Inbound.frame c) :
    (∀ reg : Registry,
        regLookup (voiceLoop agent tts sid reg (fs ++ Inbound.disconnect :: rest)).2 sid
          = none)
    ∧ (∀ reg : Registry,
        regLookup (textLoop agent sid reg (fs ++ Inbound.disconnect :: rest)).2 sid
          = none)
    ∧ (∀ (reg : Registry) (s : Nat), regDelete (regDelete reg s) s = regDelete reg s)
    ∧ regLookup (websocket_voice_endpoint agent tts sid []
          (fs ++ Inbound.disconnect :: rest)).2 sid = none :=
  ⟨fun reg => voiceLoop_disconnect_lookup agent tts sid rest fs reg h,
    fun reg => textLoop_disconnect_lookup agent sid rest fs reg h,
    fun reg s => regDelete_idem reg s,
    voiceLoop_disconnect_lookup agent tts sid rest fs (regSet [] sid []) h⟩

/-- C6 (witness): after an immediate disconnect the session is gone. -/
theorem C6_witness :
    regLookup (voiceLoop agentBoom ttsNone 7 [(7, [])]
        ([] ++ Inbound.disconnect :: [])).2 7 = none :=
  (C6_amended_close_on_disconnect agentBoom ttsNone 7 [] [] (by simp)).1 [(7, [])]

/-! ### Claim C10 -/

/-- C10: the shopping cart is one process-wide list, not per-session
state: accepting any new `/ws` connection clears it, whatever it held
— in particular the cart contents accumulated during a first session
are emptied the moment a second connection is accepted. -/
theorem C10_shared_cart_cleared (st : FurnitureState) (sid : Nat) :
    (websocket_endpoint_accept st sid).shopping_cart = []
    ∧ regLookup (websocket_endpoint_accept st sid).conversations sid = some []
    ∧ (∀ (st1 : FurnitureState) (sid1 : Nat) (items : List CartItem),
        (websocket_endpoint_accept
          { websocket_endpoint_accept st1 sid1 with shopping_cart := items }
          sid).shopping_cart = []) :=
  ⟨rfl, regLookup_regSet st.conversations sid [], fun _ _ _ => rfl⟩
